import Mathlib

/-! Verification of the art-gallery robot motion controller (the Sample class
declared in src/artbot_code/src/sample.h). The repository ships only the
header: constants and signatures are taken from it directly, while member
function bodies are modelled from the specification, each such definition
marked by a doc comment starting with the words Modelled from the spec.
All kinematic arithmetic is carried out exactly over the rationals. -/

namespace Artbot

/-- Offset between the robot reference frame and the laser scanner frame,
from sample.h line 205 (SENSOR_OFFSET_ = 0.12). -/
def SENSOR_OFFSET_ : ℚ := 12 / 100

/-- Distance at which the robot must stop before an obstacle, from sample.h
line 208 (STOP_DISTANCE_ = 0.24). -/
def STOP_DISTANCE_ : ℚ := 24 / 100

/-- Distance below which the active goal counts as reached, from sample.h
line 210 (GOAL_DISTANCE_ = 0.1). -/
def GOAL_DISTANCE_ : ℚ := 1 / 10

/-- Steering sensitivity gain, from sample.h line 212 (STEERING_SENS_ = 0.8). -/
def STEERING_SENS_ : ℚ := 8 / 10

/-- Largest double value, used as the seed of running minima, from sample.h
line 224 (DBL_MAX_ = 1.7976931348623157E+308). -/
def DBL_MAX_ : ℚ := 17976931348623157 * 10 ^ 292

/-- Maximum linear velocity in meters per second, from sample.h line 226. -/
def MAX_VEL : ℚ := 26 / 100

/-- Maximum linear acceleration in meters per second squared, from sample.h
line 227. -/
def MAX_ACCEL : ℚ := 43 / 100

/-- Maximum linear jerk in meters per second cubed, from sample.h line 228. -/
def MAX_JERK : ℚ := 1

/-- Robot width in meters, from sample.h line 230. -/
def ROBOT_WIDTH_ : ℚ := 3 / 10

/-- Lookahead distance of the pure-pursuit controller, from sample.h
line 241 (lookahead_dist_ = 0.4). -/
def lookahead_dist_ : ℚ := 4 / 10

/-- One sample of a range scan: bearing angle, measured distance, and a
validity flag (false for range-exceeded sentinel readings). -/
structure ScanSample where
  angle : ℚ
  range : ℚ
  valid : Bool
deriving DecidableEq

/-- A sample counts toward the forward minimum when it is valid and its
bearing lies inside the forward sector of half-width sectorHalf. -/
def inForwardSector (sectorHalf : ℚ) (s : ScanSample) : Bool :=
  s.valid && decide (-sectorHalf ≤ s.angle) && decide (s.angle ≤ sectorHalf)

/-- Modelled from the spec: the minimum valid range in the current scan
forward sector (sample.h only declares laserCallback and laserData_).
The running minimum is seeded with DBL_MAX_ exactly as the header's
sentinel constant suggests. -/
def minForwardRange (sectorHalf : ℚ) (scan : List ScanSample) : ℚ :=
  ((scan.filter (inForwardSector sectorHalf)).map (fun s => s.range)).foldl min DBL_MAX_

/-- A drive command: linear velocity and steering value, the two fields of
the published geometry_msgs::Twist that the controller uses. -/
structure DriveCmd where
  linear : ℚ
  steering : ℚ
deriving DecidableEq

/-- Modelled from the spec: the per-tick safety interlock of the control
loop (the body of seperateThread is not in the repository). When the
minimum valid forward range minus SENSOR_OFFSET_ falls below
STOP_DISTANCE_, the tooClose flag is raised and the linear velocity is
overridden to zero, whatever the pursuit computation produced. -/
def safetyInterlock (minRange : ℚ) (pursuit : DriveCmd) : DriveCmd × Bool :=
  if minRange - SENSOR_OFFSET_ < STOP_DISTANCE_ then (⟨0, pursuit.steering⟩, true)
  else (pursuit, false)

/-- The command and tooClose flag emitted by one control tick, given the
current scan and the drive command computed by pure pursuit. -/
def controlTickCmd (sectorHalf : ℚ) (scan : List ScanSample) (pursuit : DriveCmd) :
    DriveCmd × Bool :=
  safetyInterlock (minForwardRange sectorHalf scan) pursuit

/-- Mission-level state of the Sample class: the running_ and real_ atomic
flags and the stateChange_ terminal-flood guard, from sample.h
lines 195-199. -/
structure MissionState where
  running_ : Bool
  real_ : Bool
  stateChange_ : Bool
deriving DecidableEq

/-- Response of the std_srvs::SetBool mission service: a success flag and a
human-readable status message. -/
structure SetBoolResponse where
  success : Bool
  message : String
deriving DecidableEq

/-- Modelled from the spec: the request service handler (sample.h lines
93-94 declare it and document that it always returns true). It overwrites
the mission-active flag with the requested value, records whether the
state changed for the terminal-flood guard, and always reports success. -/
def request (req : Bool) (s : MissionState) : MissionState × SetBoolResponse :=
  (⟨req, s.real_, s.running_ != req⟩,
   ⟨true, if req then "Mission started" else "Mission stopped"⟩)

/-- Occupancy state of one grid cell, the three values of the spec. -/
inductive CellState
  | free
  | occupied
  | unknown
deriving DecidableEq

/-- The occupancy grid: metadata fields map_width_, map_height_,
map_resolution_, map_origin_x_, map_origin_y_ and cell data map_data_,
from sample.h lines 247-252, with the int8 cell values abstracted to the
three occupancy states named by the spec. -/
structure OccGrid where
  width : ℕ
  height : ℕ
  resolution : ℚ
  originX : ℚ
  originY : ℚ
  data : List CellState
deriving DecidableEq

/-- A 2D point with rational coordinates. -/
structure Point where
  x : ℚ
  y : ℚ
deriving DecidableEq

/-- Grid cell containing a world point: floor of the offset from the map
origin divided by the resolution, in each axis. -/
def cellIndexOf (g : OccGrid) (p : Point) : ℤ × ℤ :=
  (⌊(p.x - g.originX) / g.resolution⌋, ⌊(p.y - g.originY) / g.resolution⌋)

/-- Whether a cell index lies inside the width times height grid extent. -/
def inGridB (g : OccGrid) (c : ℤ × ℤ) : Bool :=
  decide (0 ≤ c.1) && decide (c.1 < (g.width : ℤ)) &&
    decide (0 ≤ c.2) && decide (c.2 < (g.height : ℤ))

/-- Occupancy state stored at a cell, row-major as in map_data_; reading
outside the stored data conservatively yields unknown. -/
def cellAt (g : OccGrid) (c : ℤ × ℤ) : CellState :=
  g.data.getD (c.2 * g.width + c.1).toNat CellState.unknown

/-- Radius in cells that covers every cell center within halfWidth meters. -/
def cellRadius (g : OccGrid) (halfWidth : ℚ) : ℕ :=
  ⌈halfWidth / g.resolution⌉.toNat

/-- All integer offsets in the square of the given radius. -/
def offsetSquare (r : ℕ) : List (ℤ × ℤ) :=
  (List.range (2 * r + 1)).flatMap (fun i =>
    (List.range (2 * r + 1)).map (fun j => ((i : ℤ) - r, (j : ℤ) - r)))

/-- Whether a cell offset keeps the cell center within halfWidth meters of
the candidate cell center. -/
def withinHalfWidth (g : OccGrid) (halfWidth : ℚ) (d : ℤ × ℤ) : Bool :=
  decide ((d.1 * g.resolution) ^ 2 + (d.2 * g.resolution) ^ 2 ≤ halfWidth ^ 2)

/-- The in-grid cells within halfWidth meters of a given cell, the cell
itself included since the zero offset always qualifies. -/
def neighborhoodCells (g : OccGrid) (halfWidth : ℚ) (c : ℤ × ℤ) : List (ℤ × ℤ) :=
  (((offsetSquare (cellRadius g halfWidth)).filter (withinHalfWidth g halfWidth)).map
    (fun d => (c.1 + d.1, c.2 + d.2))).filter (inGridB g)

/-- Outcome of validating a candidate goal against the occupancy grid. -/
inductive GoalValidation
  | accepted
  | rejected
  | outOfBoundsGoal
deriving DecidableEq

/-- Modelled from the spec: validate(candidate, grid, robotHalfWidth); the
validation body is not in the repository, which only stores the grid in
map_data_ and the robot width in ROBOT_WIDTH_. The candidate fails with
outOfBoundsGoal when its cell is outside the grid extent, is rejected when
some in-grid cell within the robot half-width is occupied or unknown, and
is accepted when all such cells are free. -/
def validate (p : Point) (g : OccGrid) (halfWidth : ℚ) : GoalValidation :=
  if inGridB g (cellIndexOf g p) then
    if (neighborhoodCells g halfWidth (cellIndexOf g p)).all
        (fun q => cellAt g q == CellState.free)
    then GoalValidation.accepted
    else GoalValidation.rejected
  else GoalValidation.outOfBoundsGoal

/-- C3: validate fails with outOfBoundsGoal exactly when the candidate maps
to a cell outside the grid extent; otherwise it accepts the candidate
exactly when every in-grid cell within the robot half-width of the
candidate cell is free, and rejects it exactly when some such cell is
occupied or unknown. -/
theorem C3_validate_characterisation (p : Point) (g : OccGrid) (halfWidth : ℚ) :
    (validate p g halfWidth = GoalValidation.outOfBoundsGoal ↔
      inGridB g (cellIndexOf g p) = false) ∧
    (validate p g halfWidth = GoalValidation.accepted ↔
      (inGridB g (cellIndexOf g p) = true ∧
        ∀ q ∈ neighborhoodCells g halfWidth (cellIndexOf g p),
          cellAt g q = CellState.free)) ∧
    (validate p g halfWidth = GoalValidation.rejected ↔
      (inGridB g (cellIndexOf g p) = true ∧
        ∃ q ∈ neighborhoodCells g halfWidth (cellIndexOf g p),
          cellAt g q ≠ CellState.free)) := by
  unfold validate
  by_cases hin : inGridB g (cellIndexOf g p) = true
  · rw [if_pos hin]
    by_cases hall : (neighborhoodCells g halfWidth (cellIndexOf g p)).all
        (fun q => cellAt g q == CellState.free) = true
    · rw [if_pos hall]
      have hforall : ∀ q ∈ neighborhoodCells g halfWidth (cellIndexOf g p),
          cellAt g q = CellState.free := fun q hq => by
        simpa using List.all_eq_true.mp hall q hq
      refine ⟨⟨fun h => absurd h (by decide), fun hf => ?_⟩,
        ⟨fun _ => ⟨hin, hforall⟩, fun _ => rfl⟩,
        ⟨fun h => absurd h (by decide), ?_⟩⟩
      · rw [hf] at hin
        exact Bool.noConfusion hin
      · rintro ⟨-, q, hq, hne⟩
        exact absurd (hforall q hq) hne
    · rw [if_neg hall]
      have hallf : (neighborhoodCells g halfWidth (cellIndexOf g p)).all
          (fun q => cellAt g q == CellState.free) = false := by
        simpa using hall
      have hex : ∃ q ∈ neighborhoodCells g halfWidth (cellIndexOf g p),
          cellAt g q ≠ CellState.free := by
        obtain ⟨q, hq, hqf⟩ := List.all_eq_false.mp hallf
        exact ⟨q, hq, by simpa using hqf⟩
      refine ⟨⟨fun h => absurd h (by decide), fun hf => ?_⟩,
        ⟨fun h => absurd h (by decide), fun hacc => ?_⟩,
        ⟨fun _ => ⟨hin, hex⟩, fun _ => rfl⟩⟩
      · rw [hf] at hin
        exact Bool.noConfusion hin
      · obtain ⟨q, hq, hne⟩ := hex
        exact absurd (hacc.2 q hq) hne
  · rw [if_neg hin]
    have hinf : inGridB g (cellIndexOf g p) = false := by
      simpa using hin
    exact ⟨⟨fun _ => hinf, fun _ => rfl⟩,
      ⟨fun h => absurd h (by decide), fun hacc => absurd hacc.1 hin⟩,
      ⟨fun h => absurd h (by decide), fun hrej => absurd hrej.1 hin⟩⟩

/-- Squared Euclidean distance between two points. -/
def sqDist (a b : Point) : ℚ := (a.x - b.x) ^ 2 + (a.y - b.y) ^ 2

/-- Modelled from the spec: the forward scan inside FindLookaheadPoint
(declared at sample.h line 142): from index i on, the first index whose
point lies at or beyond lookahead_dist_ from the current position.
Distances are compared through their squares, which is equivalent for
nonnegative lengths. -/
def scanAhead (pos : Point) (pts : List Point) (i : ℕ) : Option ℕ :=
  if i < pts.length then
    if lookahead_dist_ ^ 2 ≤ sqDist pos (pts.getD i ⟨0, 0⟩) then some i
    else scanAhead pos pts (i + 1)
  else none
termination_by pts.length - i
decreasing_by omega

/-- Modelled from the spec: FindLookaheadPoint. Scanning starts at the last
known profile index; when no point at or beyond the lookahead distance
exists before the profile end, the final profile point is used; an empty
profile yields no lookahead point. -/
def FindLookaheadPoint (pos : Point) (lastIdx : ℕ) (pts : List Point) :
    Option (ℕ × Point) :=
  match scanAhead pos pts lastIdx with
  | some i => some (i, pts.getD i ⟨0, 0⟩)
  | none =>
      if pts.isEmpty then none
      else some (pts.length - 1, pts.getD (pts.length - 1) ⟨0, 0⟩)

/-- When the forward scan from index i finds index j, then j is the first
index at or after i whose point lies at or beyond the lookahead distance. -/
lemma scanAhead_some_spec (pos : Point) (pts : List Point) :
    ∀ n i j, pts.length - i ≤ n → scanAhead pos pts i = some j →
      i ≤ j ∧ j < pts.length ∧
        lookahead_dist_ ^ 2 ≤ sqDist pos (pts.getD j ⟨0, 0⟩) ∧
        ∀ m, i ≤ m → m < j → sqDist pos (pts.getD m ⟨0, 0⟩) < lookahead_dist_ ^ 2 := by
  intro n
  induction n with
  | zero =>
      intro i j hn hs
      rw [scanAhead, if_neg (by omega)] at hs
      exact absurd hs (by simp)
  | succ n ih =>
      intro i j hn hs
      rw [scanAhead] at hs
      by_cases h : i < pts.length
      · rw [if_pos h] at hs
        by_cases hd : lookahead_dist_ ^ 2 ≤ sqDist pos (pts.getD i ⟨0, 0⟩)
        · rw [if_pos hd] at hs
          obtain rfl : i = j := by simpa using hs
          exact ⟨le_refl i, h, hd, fun m h1 h2 => absurd (lt_of_le_of_lt h1 h2) (lt_irrefl i)⟩
        · rw [if_neg hd] at hs
          obtain ⟨h1, h2, h3, h4⟩ := ih (i + 1) j (by omega) hs
          refine ⟨by omega, h2, h3, fun m hm1 hm2 => ?_⟩
          rcases Nat.eq_or_lt_of_le hm1 with rfl | hm
          · exact lt_of_not_le hd
          · exact h4 m hm hm2
      · rw [if_neg h] at hs
        exact absurd hs (by simp)

/-- When the forward scan from index i finds nothing, every point from
index i to the profile end is strictly inside the lookahead distance. -/
lemma scanAhead_none_spec (pos : Point) (pts : List Point) :
    ∀ n i, pts.length - i ≤ n → scanAhead pos pts i = none →
      ∀ m, i ≤ m → m < pts.length →
        sqDist pos (pts.getD m ⟨0, 0⟩) < lookahead_dist_ ^ 2 := by
  intro n
  induction n with
  | zero =>
      intro i hn _ m hm1 hm2
      exact absurd (lt_of_le_of_lt hm1 hm2) (by omega)
  | succ n ih =>
      intro i hn hs m hm1 hm2
      rw [scanAhead] at hs
      by_cases h : i < pts.length
      · rw [if_pos h] at hs
        by_cases hd : lookahead_dist_ ^ 2 ≤ sqDist pos (pts.getD i ⟨0, 0⟩)
        · rw [if_pos hd] at hs
          exact absurd hs (by simp)
        · rw [if_neg hd] at hs
          rcases Nat.eq_or_lt_of_le hm1 with rfl | hm
          · exact lt_of_not_le hd
          · exact ih (i + 1) (by omega) hs m hm hm2
      · exact absurd (lt_of_le_of_lt hm1 hm2) h

/-- FindLookaheadPoint returns nothing exactly for the empty profile. -/
lemma FindLookaheadPoint_eq_none_iff (pos : Point) (lastIdx : ℕ) (pts : List Point) :
    FindLookaheadPoint pos lastIdx pts = none ↔ pts = [] := by
  constructor
  · intro h
    unfold FindLookaheadPoint at h
    cases hs : scanAhead pos pts lastIdx with
    | some i => rw [hs] at h; exact absurd h (by simp)
    | none =>
        rw [hs] at h
        by_cases he : pts.isEmpty
        · exact List.isEmpty_iff.mp he
        · rw [if_neg he] at h
          exact absurd h (by simp)
  · rintro rfl
    have hs : scanAhead pos ([] : List Point) lastIdx = none := by
      rw [scanAhead, if_neg (by simp)]
    unfold FindLookaheadPoint
    rw [hs]
    rfl

/-- C6: for every non-empty profile, the lookahead search returns a profile
point; it is the first point, scanning forward from the last known index,
whose distance from the current position is at or beyond lookahead_dist_,
or the final profile point when no scanned point reaches that distance. -/
theorem C6_lookahead_first_point_at_distance (pos : Point) (lastIdx : ℕ)
    (pts : List Point) (hne : pts ≠ []) :
    ∃ i p, FindLookaheadPoint pos lastIdx pts = some (i, p) ∧ i < pts.length ∧
      p = pts.getD i ⟨0, 0⟩ ∧
      ((lastIdx ≤ i ∧ lookahead_dist_ ^ 2 ≤ sqDist pos p ∧
          ∀ m, lastIdx ≤ m → m < i →
            sqDist pos (pts.getD m ⟨0, 0⟩) < lookahead_dist_ ^ 2) ∨
        (i = pts.length - 1 ∧
          ∀ m, lastIdx ≤ m → m < pts.length →
            sqDist pos (pts.getD m ⟨0, 0⟩) < lookahead_dist_ ^ 2)) := by
  have hlen : 0 < pts.length := List.length_pos.mpr hne
  unfold FindLookaheadPoint
  cases hs : scanAhead pos pts lastIdx with
  | some i =>
      obtain ⟨h1, h2, h3, h4⟩ :=
        scanAhead_some_spec pos pts (pts.length - lastIdx) lastIdx i (le_refl _) hs
      exact ⟨i, pts.getD i ⟨0, 0⟩, rfl, h2, rfl, Or.inl ⟨h1, h3, h4⟩⟩
  | none =>
      have he : ¬ (pts.isEmpty = true) := by
        simp [List.isEmpty_iff, hne]
      rw [if_neg he]
      exact ⟨pts.length - 1, pts.getD (pts.length - 1) ⟨0, 0⟩, rfl, by omega, rfl,
        Or.inr ⟨rfl,
          scanAhead_none_spec pos pts (pts.length - lastIdx) lastIdx (le_refl _) hs⟩⟩

/-- Witness for C6 on a concrete two-point profile with the robot at the
origin: the search returns a point of the profile. -/
theorem C6_lookahead_first_point_at_distance_witness :
    ([⟨0, 0⟩, ⟨1, 0⟩] : List Point) ≠ [] ∧
      (∃ i p, FindLookaheadPoint ⟨0, 0⟩ 0 [⟨0, 0⟩, ⟨1, 0⟩] = some (i, p) ∧
        i < ([⟨0, 0⟩, ⟨1, 0⟩] : List Point).length ∧
        p = ([⟨0, 0⟩, ⟨1, 0⟩] : List Point).getD i ⟨0, 0⟩ ∧
        ((0 ≤ i ∧ lookahead_dist_ ^ 2 ≤ sqDist ⟨0, 0⟩ p ∧
            ∀ m, 0 ≤ m → m < i →
              sqDist ⟨0, 0⟩ (([⟨0, 0⟩, ⟨1, 0⟩] : List Point).getD m ⟨0, 0⟩) <
                lookahead_dist_ ^ 2) ∨
          (i = ([⟨0, 0⟩, ⟨1, 0⟩] : List Point).length - 1 ∧
            ∀ m, 0 ≤ m → m < ([⟨0, 0⟩, ⟨1, 0⟩] : List Point).length →
              sqDist ⟨0, 0⟩ (([⟨0, 0⟩, ⟨1, 0⟩] : List Point).getD m ⟨0, 0⟩) <
                lookahead_dist_ ^ 2))) :=
  ⟨List.cons_ne_nil _ _,
    C6_lookahead_first_point_at_distance ⟨0, 0⟩ 0 [⟨0, 0⟩, ⟨1, 0⟩] (List.cons_ne_nil _ _)⟩

/-- Robot pose with the heading stored as its cosine and sine, the form the
quaternion of geometry_msgs::Pose determines. -/
structure PoseQ where
  x : ℚ
  y : ℚ
  headingC : ℚ
  headingS : ℚ
deriving DecidableEq

/-- Output of one pursuit tick: the drive command and the flag recording
that no lookahead point was available. -/
structure PursuitOutput where
  cmd : DriveCmd
  noLookahead : Bool
deriving DecidableEq

/-- Modelled from the spec: the per-tick pursuit computation. A missing
lookahead point (empty profile) degrades to the zero command with the flag
set; otherwise the linear velocity is the profile velocity at the found
index and the steering is the pure-pursuit curvature, in its local-frame
rational form, scaled by STEERING_SENS_. The function is total by
construction: it never raises an error to the caller. -/
def pursuitStep (pose : PoseQ) (lastIdx : ℕ) (pts : List Point) (vels : List ℚ) :
    PursuitOutput :=
  match FindLookaheadPoint ⟨pose.x, pose.y⟩ lastIdx pts with
  | none => ⟨⟨0, 0⟩, true⟩
  | some (i, p) =>
      ⟨⟨vels.getD i 0,
        STEERING_SENS_ *
          (2 * ((p.y - pose.y) * pose.headingC - (p.x - pose.x) * pose.headingS) /
            lookahead_dist_ ^ 2)⟩,
       false⟩

/-- C5: the per-tick pursuit computation always yields a command pair: the
empty profile degrades to the zero command with the no-lookahead flag set,
and every non-empty profile produces an output whose flag is clear, so no
error is ever surfaced to the caller. -/
theorem C5_pursuit_total_degrades_to_zero (pose : PoseQ) (lastIdx : ℕ)
    (pts : List Point) (vels : List ℚ) :
    (pts = [] → pursuitStep pose lastIdx pts vels = ⟨⟨0, 0⟩, true⟩) ∧
      (pts ≠ [] → (pursuitStep pose lastIdx pts vels).noLookahead = false) := by
  constructor
  · rintro rfl
    have h : FindLookaheadPoint ⟨pose.x, pose.y⟩ lastIdx ([] : List Point) = none :=
      (FindLookaheadPoint_eq_none_iff _ _ _).mpr rfl
    unfold pursuitStep
    rw [h]
  · intro hne
    unfold pursuitStep
    cases hfl : FindLookaheadPoint ⟨pose.x, pose.y⟩ lastIdx pts with
    | none => exact absurd ((FindLookaheadPoint_eq_none_iff _ _ _).mp hfl) hne
    | some ip => cases ip; rfl

/-- Acceleration shape of the jerk-limited S-curve velocity schedule, in
units of MAX_JERK times the tick period: step i changes the velocity by u
times this value, where u is MAX_JERK times the squared tick period. The
schedule ramps the acceleration up and then down at the jerk limit over k
steps each, cruises for c steps, and mirrors the two ramps to brake back
to zero. -/
def shapeZ (k c i : ℕ) : ℤ :=
  if i ≤ k then (i : ℤ)
  else if i ≤ 2 * k then 2 * (k : ℤ) - (i : ℤ)
  else if i ≤ 2 * k + c then 0
  else if i ≤ 3 * k + c then 2 * (k : ℤ) + (c : ℤ) - (i : ℤ)
  else (i : ℤ) - 4 * (k : ℤ) - (c : ℤ)

/-- Velocity of the jerk-limited schedule at point i, in units of u: the
closed form of the running sum of shapeZ over the first i steps. -/
def velShape (k c i : ℕ) : ℚ :=
  if i ≤ k then (i : ℚ) * ((i : ℚ) + 1) / 2
  else if i ≤ 2 * k then
    (k : ℚ) * ((k : ℚ) + 1) / 2 + ((i : ℚ) - (k : ℚ)) * (k : ℚ) -
      ((i : ℚ) - (k : ℚ)) * ((i : ℚ) - (k : ℚ) + 1) / 2
  else if i ≤ 2 * k + c then (k : ℚ) * (k : ℚ)
  else if i ≤ 3 * k + c then
    (k : ℚ) * (k : ℚ) -
      ((i : ℚ) - 2 * (k : ℚ) - (c : ℚ)) * ((i : ℚ) - 2 * (k : ℚ) - (c : ℚ) + 1) / 2
  else
    (k : ℚ) * (k : ℚ) - (k : ℚ) * ((k : ℚ) + 1) / 2 -
      ((i : ℚ) - 3 * (k : ℚ) - (c : ℚ)) * (k : ℚ) +
      ((i : ℚ) - 3 * (k : ℚ) - (c : ℚ)) * ((i : ℚ) - 3 * (k : ℚ) - (c : ℚ) + 1) / 2

lemma velShape_eqA (k c i : ℕ) (h : i ≤ k) :
    velShape k c i = (i : ℚ) * ((i : ℚ) + 1) / 2 := by
  unfold velShape
  rw [if_pos h]

lemma velShape_eqB (k c i : ℕ) (h1 : k < i) (h2 : i ≤ 2 * k) :
    velShape k c i = (k : ℚ) * ((k : ℚ) + 1) / 2 + ((i : ℚ) - (k : ℚ)) * (k : ℚ) -
      ((i : ℚ) - (k : ℚ)) * ((i : ℚ) - (k : ℚ) + 1) / 2 := by
  unfold velShape
  rw [if_neg (by omega), if_pos h2]

lemma velShape_eqC (k c i : ℕ) (h1 : 2 * k < i) (h2 : i ≤ 2 * k + c) :
    velShape k c i = (k : ℚ) * (k : ℚ) := by
  unfold velShape
  rw [if_neg (by omega), if_neg (by omega), if_pos h2]

lemma velShape_eqD (k c i : ℕ) (h1 : 2 * k + c < i) (h2 : i ≤ 3 * k + c) :
    velShape k c i = (k : ℚ) * (k : ℚ) -
      ((i : ℚ) - 2 * (k : ℚ) - (c : ℚ)) * ((i : ℚ) - 2 * (k : ℚ) - (c : ℚ) + 1) / 2 := by
  unfold velShape
  rw [if_neg (by omega), if_neg (by omega), if_neg (by omega), if_pos h2]

lemma velShape_eqE (k c i : ℕ) (h1 : 3 * k + c < i) :
    velShape k c i = (k : ℚ) * (k : ℚ) - (k : ℚ) * ((k : ℚ) + 1) / 2 -
      ((i : ℚ) - 3 * (k : ℚ) - (c : ℚ)) * (k : ℚ) +
      ((i : ℚ) - 3 * (k : ℚ) - (c : ℚ)) * ((i : ℚ) - 3 * (k : ℚ) - (c : ℚ) + 1) / 2 := by
  unfold velShape
  rw [if_neg (by omega), if_neg (by omega), if_neg (by omega), if_neg (by omega)]

lemma shapeZ_eqA (k c i : ℕ) (h : i ≤ k) : shapeZ k c i = (i : ℤ) := by
  unfold shapeZ
  rw [if_pos h]

lemma shapeZ_eqB (k c i : ℕ) (h1 : k < i) (h2 : i ≤ 2 * k) :
    shapeZ k c i = 2 * (k : ℤ) - (i : ℤ) := by
  unfold shapeZ
  rw [if_neg (by omega), if_pos h2]

lemma shapeZ_eqC (k c i : ℕ) (h1 : 2 * k < i) (h2 : i ≤ 2 * k + c) : shapeZ k c i = 0 := by
  unfold shapeZ
  rw [if_neg (by omega), if_neg (by omega), if_pos h2]

lemma shapeZ_eqD (k c i : ℕ) (h1 : 2 * k + c < i) (h2 : i ≤ 3 * k + c) :
    shapeZ k c i = 2 * (k : ℤ) + (c : ℤ) - (i : ℤ) := by
  unfold shapeZ
  rw [if_neg (by omega), if_neg (by omega), if_neg (by omega), if_pos h2]

lemma shapeZ_eqE (k c i : ℕ) (h1 : 3 * k + c < i) :
    shapeZ k c i = (i : ℤ) - 4 * (k : ℤ) - (c : ℤ) := by
  unfold shapeZ
  rw [if_neg (by omega), if_neg (by omega), if_neg (by omega), if_neg (by omega)]

/-- The acceleration of the schedule never exceeds k jerk units in
magnitude, over the profile indices. -/
lemma shapeZ_bounds (k c i : ℕ) (h : i ≤ 4 * k + c) :
    shapeZ k c i ≤ (k : ℤ) ∧ -(k : ℤ) ≤ shapeZ k c i := by
  unfold shapeZ
  split_ifs <;> constructor <;> omega

/-- Consecutive accelerations of the schedule differ by at most one jerk
unit. -/
lemma shapeZ_step_bounds (k c i : ℕ) :
    shapeZ k c (i + 1) - shapeZ k c i ≤ 1 ∧
      -(1 : ℤ) ≤ shapeZ k c (i + 1) - shapeZ k c i := by
  unfold shapeZ
  split_ifs <;> constructor <;> omega

/-- The closed form velShape indeed advances by the acceleration shapeZ at
every step. -/
lemma velShape_step (k c i : ℕ) :
    velShape k c (i + 1) - velShape k c i = (shapeZ k c (i + 1) : ℚ) := by
  rcases show i + 1 ≤ k ∨ (k < i + 1 ∧ i + 1 ≤ 2 * k) ∨
      (2 * k < i + 1 ∧ i + 1 ≤ 2 * k + c) ∨ (2 * k + c < i + 1 ∧ i + 1 ≤ 3 * k + c) ∨
      3 * k + c < i + 1 from by omega with
    hA | ⟨hB1, hB2⟩ | ⟨hC1, hC2⟩ | ⟨hD1, hD2⟩ | hE
  · rw [velShape_eqA k c (i + 1) hA, velShape_eqA k c i (by omega), shapeZ_eqA k c (i + 1) hA]
    push_cast
    ring
  · by_cases hik : i ≤ k
    · have hik' : i = k := by omega
      subst hik'
      rw [velShape_eqB i c (i + 1) hB1 hB2, velShape_eqA i c i (le_refl i),
        shapeZ_eqB i c (i + 1) hB1 hB2]
      push_cast
      ring
    · rw [velShape_eqB k c (i + 1) hB1 hB2, velShape_eqB k c i (by omega) (by omega),
        shapeZ_eqB k c (i + 1) hB1 hB2]
      push_cast
      ring
  · by_cases h1 : i ≤ k
    · have hk0 : k = 0 := by omega
      have hi0 : i = 0 := by omega
      subst hk0
      subst hi0
      rw [velShape_eqC 0 c 1 hC1 hC2, velShape_eqA 0 c 0 (le_refl 0), shapeZ_eqC 0 c 1 hC1 hC2]
      push_cast
      ring
    · by_cases h2 : i ≤ 2 * k
      · have hi2 : i = 2 * k := by omega
        subst hi2
        rw [velShape_eqC k c (2 * k + 1) hC1 hC2, velShape_eqB k c (2 * k) (by omega) (le_refl _),
          shapeZ_eqC k c (2 * k + 1) hC1 hC2]
        push_cast
        ring
      · rw [velShape_eqC k c (i + 1) hC1 hC2, velShape_eqC k c i (by omega) (by omega),
          shapeZ_eqC k c (i + 1) hC1 hC2]
        push_cast
        ring
  · by_cases h1 : i ≤ k
    · exfalso
      omega
    · by_cases h2 : i ≤ 2 * k
      · have hc0 : c = 0 := by omega
        have hi2 : i = 2 * k := by omega
        subst hc0
        subst hi2
        rw [velShape_eqD k 0 (2 * k + 1) hD1 hD2, velShape_eqB k 0 (2 * k) (by omega) (le_refl _),
          shapeZ_eqD k 0 (2 * k + 1) hD1 hD2]
        push_cast
        ring
      · by_cases h3 : i ≤ 2 * k + c
        · have hi3 : i = 2 * k + c := by omega
          subst hi3
          rw [velShape_eqD k c (2 * k + c + 1) hD1 hD2,
            velShape_eqC k c (2 * k + c) (by omega) (le_refl _),
            shapeZ_eqD k c (2 * k + c + 1) hD1 hD2]
          push_cast
          ring
        · rw [velShape_eqD k c (i + 1) hD1 hD2, velShape_eqD k c i (by omega) (by omega),
            shapeZ_eqD k c (i + 1) hD1 hD2]
          push_cast
          ring
  · by_cases h1 : i ≤ k
    · have hk0 : k = 0 := by omega
      have hc0 : c = 0 := by omega
      have hi0 : i = 0 := by omega
      subst hk0
      subst hc0
      subst hi0
      rw [velShape_eqE 0 0 1 hE, velShape_eqA 0 0 0 (le_refl 0), shapeZ_eqE 0 0 1 hE]
      push_cast
      ring
    · by_cases h2 : i ≤ 2 * k
      · exfalso
        omega
      · by_cases h3 : i ≤ 2 * k + c
        · have hk0 : k = 0 := by omega
          have hic : i = c := by omega
          subst hk0
          subst hic
          rw [velShape_eqE 0 i (i + 1) hE, velShape_eqC 0 i i (by omega) (by omega),
            shapeZ_eqE 0 i (i + 1) hE]
          push_cast
          ring
        · by_cases h4 : i ≤ 3 * k + c
          · have hi4 : i = 3 * k + c := by omega
            subst hi4
            rw [velShape_eqE k c (3 * k + c + 1) hE,
              velShape_eqD k c (3 * k + c) (by omega) (le_refl _),
              shapeZ_eqE k c (3 * k + c + 1) hE]
            push_cast
            ring
          · rw [velShape_eqE k c (i + 1) hE, velShape_eqE k c i (by omega),
              shapeZ_eqE k c (i + 1) hE]
            push_cast
            ring

/-- The schedule velocity is nonnegative at every profile index. -/
lemma velShape_nonneg (k c i : ℕ) (h : i ≤ 4 * k + c) : 0 ≤ velShape k c i := by
  have hk0 : (0 : ℚ) ≤ (k : ℚ) := Nat.cast_nonneg k
  rcases show i ≤ k ∨ (k < i ∧ i ≤ 2 * k) ∨ (2 * k < i ∧ i ≤ 2 * k + c) ∨
      (2 * k + c < i ∧ i ≤ 3 * k + c) ∨ 3 * k + c < i from by omega with
    hA | ⟨hB1, hB2⟩ | ⟨hC1, hC2⟩ | ⟨hD1, hD2⟩ | hE
  · rw [velShape_eqA k c i hA]
    positivity
  · rw [velShape_eqB k c i hB1 hB2]
    have h1 : (k : ℚ) + 1 ≤ (i : ℚ) := by exact_mod_cast hB1
    have h2 : (i : ℚ) ≤ 2 * (k : ℚ) := by exact_mod_cast hB2
    nlinarith [mul_nonneg (by linarith : (0 : ℚ) ≤ (i : ℚ) - (k : ℚ))
        (by linarith : (0 : ℚ) ≤ 2 * (k : ℚ) - ((i : ℚ) - (k : ℚ)) - 1),
      mul_nonneg hk0 (by linarith : (0 : ℚ) ≤ (k : ℚ) + 1)]
  · rw [velShape_eqC k c i hC1 hC2]
    positivity
  · rw [velShape_eqD k c i hD1 hD2]
    have h1 : 2 * (k : ℚ) + (c : ℚ) + 1 ≤ (i : ℚ) := by exact_mod_cast hD1
    have h2 : (i : ℚ) ≤ 3 * (k : ℚ) + (c : ℚ) := by exact_mod_cast hD2
    nlinarith [mul_nonneg
        (by linarith : (0 : ℚ) ≤ (k : ℚ) - ((i : ℚ) - 2 * (k : ℚ) - (c : ℚ)))
        (by linarith : (0 : ℚ) ≤ (k : ℚ) + ((i : ℚ) - 2 * (k : ℚ) - (c : ℚ)) + 1),
      mul_nonneg hk0 (by linarith : (0 : ℚ) ≤ (k : ℚ) - 1)]
  · by_cases hiM : i = 4 * k + c
    · subst hiM
      rw [velShape_eqE k c (4 * k + c) hE]
      push_cast
      linarith
    · rw [velShape_eqE k c i hE]
      have h1 : 3 * (k : ℚ) + (c : ℚ) + 1 ≤ (i : ℚ) := by exact_mod_cast hE
      have h2 : (i : ℚ) ≤ 4 * (k : ℚ) + (c : ℚ) - 1 := by
        have : i + 1 ≤ 4 * k + c := by omega
        have h3 : (i : ℚ) + 1 ≤ 4 * (k : ℚ) + (c : ℚ) := by exact_mod_cast this
        linarith
      nlinarith [mul_nonneg
          (by linarith : (0 : ℚ) ≤ (k : ℚ) - ((i : ℚ) - 3 * (k : ℚ) - (c : ℚ)))
          (by linarith : (0 : ℚ) ≤ (k : ℚ) - ((i : ℚ) - 3 * (k : ℚ) - (c : ℚ)) - 1)]

/-- The schedule velocity never exceeds the square of the ramp length k, in
u units, at any profile index. -/
lemma velShape_le_sq (k c i : ℕ) (h : i ≤ 4 * k + c) :
    velShape k c i ≤ (k : ℚ) * (k : ℚ) := by
  have hk0 : (0 : ℚ) ≤ (k : ℚ) := Nat.cast_nonneg k
  rcases show i ≤ k ∨ (k < i ∧ i ≤ 2 * k) ∨ (2 * k < i ∧ i ≤ 2 * k + c) ∨
      (2 * k + c < i ∧ i ≤ 3 * k + c) ∨ 3 * k + c < i from by omega with
    hA | ⟨hB1, hB2⟩ | ⟨hC1, hC2⟩ | ⟨hD1, hD2⟩ | hE
  · rw [velShape_eqA k c i hA]
    rcases Nat.eq_zero_or_pos k with rfl | hk1
    · have hi0 : i = 0 := by omega
      subst hi0
      norm_num
    · have h1 : (i : ℚ) ≤ (k : ℚ) := by exact_mod_cast hA
      have h2 : (1 : ℚ) ≤ (k : ℚ) := by exact_mod_cast hk1
      have h3 : (0 : ℚ) ≤ (i : ℚ) := Nat.cast_nonneg i
      nlinarith [mul_nonneg (by linarith : (0 : ℚ) ≤ (k : ℚ) - (i : ℚ))
          (by linarith : (0 : ℚ) ≤ (k : ℚ) + (i : ℚ) + 1),
        mul_nonneg hk0 (by linarith : (0 : ℚ) ≤ (k : ℚ) - 1)]
  · by_cases hi2 : i = 2 * k
    · subst hi2
      rw [velShape_eqB k c (2 * k) hB1 hB2]
      push_cast
      linarith
    · rw [velShape_eqB k c i hB1 hB2]
      have h1 : (k : ℚ) + 1 ≤ (i : ℚ) := by exact_mod_cast hB1
      have h2 : (i : ℚ) ≤ 2 * (k : ℚ) - 1 := by
        have : i + 1 ≤ 2 * k := by omega
        have h3 : (i : ℚ) + 1 ≤ 2 * (k : ℚ) := by exact_mod_cast this
        linarith
      nlinarith [mul_nonneg
          (by linarith : (0 : ℚ) ≤ (k : ℚ) - ((i : ℚ) - (k : ℚ)))
          (by linarith : (0 : ℚ) ≤ (k : ℚ) - ((i : ℚ) - (k : ℚ)) - 1)]
  · rw [velShape_eqC k c i hC1 hC2]
  · rw [velShape_eqD k c i hD1 hD2]
    have h1 : 2 * (k : ℚ) + (c : ℚ) + 1 ≤ (i : ℚ) := by exact_mod_cast hD1
    nlinarith [mul_nonneg
        (by linarith : (0 : ℚ) ≤ (i : ℚ) - 2 * (k : ℚ) - (c : ℚ))
        (by linarith : (0 : ℚ) ≤ (i : ℚ) - 2 * (k : ℚ) - (c : ℚ) + 1)]
  · rw [velShape_eqE k c i hE]
    have h1 : 3 * (k : ℚ) + (c : ℚ) + 1 ≤ (i : ℚ) := by exact_mod_cast hE
    have h2 : (i : ℚ) ≤ 4 * (k : ℚ) + (c : ℚ) := by exact_mod_cast h
    nlinarith [mul_nonneg
        (by linarith : (0 : ℚ) ≤ (i : ℚ) - 3 * (k : ℚ) - (c : ℚ))
        (by linarith : (0 : ℚ) ≤ 2 * (k : ℚ) - ((i : ℚ) - 3 * (k : ℚ) - (c : ℚ)) - 1),
      mul_nonneg hk0 (by linarith : (0 : ℚ) ≤ (k : ℚ) + 1)]

/-- A point of the generated trajectory profile: sampled position and
assigned linear velocity, after squiggles::ProfilePoint stored in path_ at
sample.h line 232. -/
structure ProfilePoint where
  pos : Point
  vel : ℚ
deriving DecidableEq

/-- Number of profile samples per control-point segment of the curve. -/
def SAMPLES_PER_SEG : ℕ := 10

/-- Linear interpolation between two points. -/
def lerp (a b : Point) (t : ℚ) : Point :=
  ⟨a.x + t * (b.x - a.x), a.y + t * (b.y - a.y)⟩

/-- Modelled from the spec: position of the i-th profile sample along the
curve through the control points, sampled at a fixed resolution. -/
def samplePos (ctrl : List Point) (i : ℕ) : Point :=
  if i / SAMPLES_PER_SEG + 1 < ctrl.length then
    lerp (ctrl.getD (i / SAMPLES_PER_SEG) ⟨0, 0⟩)
      (ctrl.getD (i / SAMPLES_PER_SEG + 1) ⟨0, 0⟩)
      (((i % SAMPLES_PER_SEG : ℕ) : ℚ) / ((SAMPLES_PER_SEG : ℕ) : ℚ))
  else ctrl.getD (ctrl.length - 1) ⟨0, 0⟩

/-- Floor of a nonnegative rational, as a natural number. -/
def floorToNat (q : ℚ) : ℕ := ⌊q⌋.toNat

/-- Modelled from the spec: ramp length (in steps) of the jerk-limited
schedule: the largest k compatible with the acceleration limit, the
velocity limit, and the profile length M. -/
def planRampSteps (dt : ℚ) (M : ℕ) : ℕ :=
  min (min (floorToNat (MAX_ACCEL / (MAX_JERK * dt)))
      (Nat.sqrt (floorToNat (MAX_VEL / (MAX_JERK * dt ^ 2))))) (M / 4)

/-- Ramp length used for the profile generated from the given goals. -/
def rampOf (dt : ℚ) (goals : List Point) : ℕ :=
  planRampSteps dt (SAMPLES_PER_SEG * goals.length)

/-- Cruise length used for the profile generated from the given goals. -/
def cruiseOf (dt : ℚ) (goals : List Point) : ℕ :=
  SAMPLES_PER_SEG * goals.length - 4 * rampOf dt goals

/-- The generated trajectory profile: the curve through the current pose
and the ordered goals, sampled at a fixed resolution, each sample carrying
the jerk-limited S-curve velocity. -/
def profileOf (dt : ℚ) (start : Point) (goals : List Point) : List ProfilePoint :=
  (List.range (SAMPLES_PER_SEG * goals.length + 1)).map (fun i =>
    ⟨samplePos (start :: goals) i,
      MAX_JERK * dt ^ 2 * velShape (rampOf dt goals) (cruiseOf dt goals) i⟩)

/-- Modelled from the spec: GenerateSpline (declared at sample.h line 136).
It fails when fewer than two goal points are supplied, and otherwise
produces the sampled, velocity-profiled trajectory stored in path_. -/
def GenerateSpline (dt : ℚ) (start : Point) (goals : List Point) :
    Option (List ProfilePoint) :=
  if goals.length < 2 then none else some (profileOf dt start goals)

lemma floorToNat_le (q : ℚ) (h : 0 ≤ q) : ((floorToNat q : ℕ) : ℚ) ≤ q := by
  unfold floorToNat
  have h0 : (0 : ℤ) ≤ ⌊q⌋ := Int.floor_nonneg.mpr h
  calc ((⌊q⌋.toNat : ℕ) : ℚ) = ((⌊q⌋ : ℤ) : ℚ) := by exact_mod_cast Int.toNat_of_nonneg h0
    _ ≤ q := Int.floor_le q

/-- The chosen ramp keeps the per-step acceleration within MAX_ACCEL. -/
lemma planRampSteps_accel (dt : ℚ) (hdt : 0 < dt) (M : ℕ) :
    ((planRampSteps dt M : ℕ) : ℚ) * (MAX_JERK * dt) ≤ MAX_ACCEL := by
  have hpos : (0 : ℚ) < MAX_JERK * dt := by
    rw [MAX_JERK]
    linarith
  have hk : planRampSteps dt M ≤ floorToNat (MAX_ACCEL / (MAX_JERK * dt)) :=
    le_trans (min_le_left _ _) (min_le_left _ _)
  have h1 : ((planRampSteps dt M : ℕ) : ℚ) ≤ MAX_ACCEL / (MAX_JERK * dt) := by
    calc ((planRampSteps dt M : ℕ) : ℚ)
        ≤ ((floorToNat (MAX_ACCEL / (MAX_JERK * dt)) : ℕ) : ℚ) := by exact_mod_cast hk
      _ ≤ MAX_ACCEL / (MAX_JERK * dt) :=
          floorToNat_le _ (div_nonneg (by norm_num [MAX_ACCEL]) (le_of_lt hpos))
  have h2 := mul_le_mul_of_nonneg_right h1 (le_of_lt hpos)
  rwa [div_mul_cancel₀ _ (ne_of_gt hpos)] at h2

/-- The chosen ramp keeps the cruise velocity within MAX_VEL. -/
lemma planRampSteps_vel (dt : ℚ) (hdt : 0 < dt) (M : ℕ) :
    MAX_JERK * dt ^ 2 * (((planRampSteps dt M : ℕ) : ℚ) * ((planRampSteps dt M : ℕ) : ℚ)) ≤
      MAX_VEL := by
  have hu : (0 : ℚ) < MAX_JERK * dt ^ 2 := by
    rw [MAX_JERK]
    positivity
  have hk : planRampSteps dt M ≤ Nat.sqrt (floorToNat (MAX_VEL / (MAX_JERK * dt ^ 2))) :=
    le_trans (min_le_left _ _) (min_le_right _ _)
  have hk2 : planRampSteps dt M * planRampSteps dt M ≤
      floorToNat (MAX_VEL / (MAX_JERK * dt ^ 2)) := Nat.le_sqrt.mp hk
  have h1 : ((planRampSteps dt M : ℕ) : ℚ) * ((planRampSteps dt M : ℕ) : ℚ) ≤
      MAX_VEL / (MAX_JERK * dt ^ 2) := by
    calc ((planRampSteps dt M : ℕ) : ℚ) * ((planRampSteps dt M : ℕ) : ℚ)
        = ((planRampSteps dt M * planRampSteps dt M : ℕ) : ℚ) := by push_cast; ring
      _ ≤ ((floorToNat (MAX_VEL / (MAX_JERK * dt ^ 2)) : ℕ) : ℚ) := by exact_mod_cast hk2
      _ ≤ MAX_VEL / (MAX_JERK * dt ^ 2) :=
          floorToNat_le _ (div_nonneg (by norm_num [MAX_VEL]) (le_of_lt hu))
  have h2 := mul_le_mul_of_nonneg_left h1 (le_of_lt hu)
  have h3 : MAX_JERK * dt ^ 2 * (MAX_VEL / (MAX_JERK * dt ^ 2)) = MAX_VEL := by
    field_simp
  rwa [h3] at h2

/-- The profile length is exactly the ramp-cruise-ramp step count plus one. -/
lemma sample_count_eq (dt : ℚ) (goals : List Point) :
    SAMPLES_PER_SEG * goals.length = 4 * rampOf dt goals + cruiseOf dt goals := by
  have h4 : 4 * rampOf dt goals ≤ SAMPLES_PER_SEG * goals.length := by
    unfold rampOf planRampSteps
    omega
  unfold cruiseOf
  omega

lemma profileOf_length (dt : ℚ) (start : Point) (goals : List Point) :
    (profileOf dt start goals).length = SAMPLES_PER_SEG * goals.length + 1 := by
  simp [profileOf]

lemma profileOf_vel (dt : ℚ) (start : Point) (goals : List Point) (i : ℕ)
    (h : i < (profileOf dt start goals).length) :
    (profileOf dt start goals)[i].vel =
      MAX_JERK * dt ^ 2 * velShape (rampOf dt goals) (cruiseOf dt goals) i := by
  simp [profileOf]

/-- Every velocity the generator assigns lies in the closed interval from 0
to MAX_VEL. -/
lemma profileOf_vel_bounds (dt : ℚ) (start : Point) (goals : List Point) (hdt : 0 < dt) :
    ∀ p ∈ profileOf dt start goals, 0 ≤ p.vel ∧ p.vel ≤ MAX_VEL := by
  intro p hp
  have hu : (0 : ℚ) < MAX_JERK * dt ^ 2 := by
    rw [MAX_JERK]
    positivity
  simp only [profileOf, List.mem_map, List.mem_range] at hp
  obtain ⟨i, hi, rfl⟩ := hp
  have hiM : i ≤ 4 * rampOf dt goals + cruiseOf dt goals := by
    have := sample_count_eq dt goals
    omega
  constructor
  · exact mul_nonneg (le_of_lt hu) (velShape_nonneg _ _ _ hiM)
  · calc MAX_JERK * dt ^ 2 * velShape (rampOf dt goals) (cruiseOf dt goals) i
        ≤ MAX_JERK * dt ^ 2 * (((rampOf dt goals : ℕ) : ℚ) * ((rampOf dt goals : ℕ) : ℚ)) :=
          mul_le_mul_of_nonneg_left (velShape_le_sq _ _ _ hiM) (le_of_lt hu)
      _ ≤ MAX_VEL := planRampSteps_vel dt hdt _

/-- Consecutive profile velocities differ by at most MAX_ACCEL times the
tick period. -/
lemma profileOf_accel_bound (dt : ℚ) (start : Point) (goals : List Point) (hdt : 0 < dt) :
    ∀ i, ∀ h : i + 1 < (profileOf dt start goals).length,
      |(profileOf dt start goals)[i + 1].vel - (profileOf dt start goals)[i].vel| ≤
        MAX_ACCEL * dt := by
  intro i h
  have hu : (0 : ℚ) ≤ MAX_JERK * dt ^ 2 := by
    rw [MAX_JERK]
    positivity
  have hlen := profileOf_length dt start goals
  have hiM : i + 1 ≤ 4 * rampOf dt goals + cruiseOf dt goals := by
    have := sample_count_eq dt goals
    omega
  rw [profileOf_vel dt start goals (i + 1) h, profileOf_vel dt start goals i (by omega)]
  rw [← mul_sub, velShape_step, abs_mul, abs_of_nonneg hu]
  have hsz := shapeZ_bounds (rampOf dt goals) (cruiseOf dt goals) (i + 1) hiM
  have habs : |((shapeZ (rampOf dt goals) (cruiseOf dt goals) (i + 1) : ℤ) : ℚ)| ≤
      ((rampOf dt goals : ℕ) : ℚ) := by
    rw [abs_le]
    constructor
    · exact_mod_cast hsz.2
    · exact_mod_cast hsz.1
  calc MAX_JERK * dt ^ 2 * |((shapeZ (rampOf dt goals) (cruiseOf dt goals) (i + 1) : ℤ) : ℚ)|
      ≤ MAX_JERK * dt ^ 2 * ((rampOf dt goals : ℕ) : ℚ) :=
        mul_le_mul_of_nonneg_left habs hu
    _ = ((rampOf dt goals : ℕ) : ℚ) * (MAX_JERK * dt) * dt := by ring
    _ ≤ MAX_ACCEL * dt :=
        mul_le_mul_of_nonneg_right (planRampSteps_accel dt hdt _) (le_of_lt hdt)

/-- The second difference of consecutive profile velocities is at most
MAX_JERK times the squared tick period. -/
lemma profileOf_jerk_bound (dt : ℚ) (start : Point) (goals : List Point) (hdt : 0 < dt) :
    ∀ i, ∀ h : i + 2 < (profileOf dt start goals).length,
      |(profileOf dt start goals)[i + 2].vel - 2 * (profileOf dt start goals)[i + 1].vel +
          (profileOf dt start goals)[i].vel| ≤ MAX_JERK * dt ^ 2 := by
  intro i h
  have hu : (0 : ℚ) ≤ MAX_JERK * dt ^ 2 := by
    rw [MAX_JERK]
    positivity
  rw [profileOf_vel dt start goals (i + 2) h, profileOf_vel dt start goals (i + 1) (by omega),
    profileOf_vel dt start goals i (by omega)]
  have hkey : MAX_JERK * dt ^ 2 * velShape (rampOf dt goals) (cruiseOf dt goals) (i + 2) -
      2 * (MAX_JERK * dt ^ 2 * velShape (rampOf dt goals) (cruiseOf dt goals) (i + 1)) +
      MAX_JERK * dt ^ 2 * velShape (rampOf dt goals) (cruiseOf dt goals) i =
      MAX_JERK * dt ^ 2 *
        (((shapeZ (rampOf dt goals) (cruiseOf dt goals) (i + 2) : ℤ) : ℚ) -
          ((shapeZ (rampOf dt goals) (cruiseOf dt goals) (i + 1) : ℤ) : ℚ)) := by
    have h1 := velShape_step (rampOf dt goals) (cruiseOf dt goals) (i + 1)
    have h2 := velShape_step (rampOf dt goals) (cruiseOf dt goals) i
    have h1' : velShape (rampOf dt goals) (cruiseOf dt goals) (i + 1 + 1) -
        velShape (rampOf dt goals) (cruiseOf dt goals) (i + 1) =
        ((shapeZ (rampOf dt goals) (cruiseOf dt goals) (i + 1 + 1) : ℤ) : ℚ) := h1
    have hi2 : i + 1 + 1 = i + 2 := by omega
    rw [hi2] at h1'
    linear_combination (MAX_JERK * dt ^ 2) * h1' - (MAX_JERK * dt ^ 2) * h2
  rw [hkey, abs_mul, abs_of_nonneg hu]
  have hsz := shapeZ_step_bounds (rampOf dt goals) (cruiseOf dt goals) (i + 1)
  have hsz' : shapeZ (rampOf dt goals) (cruiseOf dt goals) (i + 1 + 1) -
      shapeZ (rampOf dt goals) (cruiseOf dt goals) (i + 1) ≤ 1 ∧
      -(1 : ℤ) ≤ shapeZ (rampOf dt goals) (cruiseOf dt goals) (i + 1 + 1) -
        shapeZ (rampOf dt goals) (cruiseOf dt goals) (i + 1) := hsz
  have hi2 : i + 1 + 1 = i + 2 := by omega
  rw [hi2] at hsz'
  have habs : |((shapeZ (rampOf dt goals) (cruiseOf dt goals) (i + 2) : ℤ) : ℚ) -
      ((shapeZ (rampOf dt goals) (cruiseOf dt goals) (i + 1) : ℤ) : ℚ)| ≤ 1 := by
    rw [abs_le]
    constructor
    · exact_mod_cast hsz'.2
    · exact_mod_cast hsz'.1
  calc MAX_JERK * dt ^ 2 * |((shapeZ (rampOf dt goals) (cruiseOf dt goals) (i + 2) : ℤ) : ℚ) -
        ((shapeZ (rampOf dt goals) (cruiseOf dt goals) (i + 1) : ℤ) : ℚ)|
      ≤ MAX_JERK * dt ^ 2 * 1 := mul_le_mul_of_nonneg_left habs hu
    _ = MAX_JERK * dt ^ 2 := by ring

/-- C1: on every control tick in which the minimum valid range in the scan
forward sector, minus SENSOR_OFFSET_, is below STOP_DISTANCE_, the tick
raises the tooClose flag and the emitted linear velocity is exactly 0,
regardless of the pursuit command supplied to it. -/
theorem C1_safety_interlock_zeroes_velocity (sectorHalf : ℚ) (scan : List ScanSample)
    (pursuit : DriveCmd)
    (h : minForwardRange sectorHalf scan - SENSOR_OFFSET_ < STOP_DISTANCE_) :
    (controlTickCmd sectorHalf scan pursuit).1.linear = 0 ∧
      (controlTickCmd sectorHalf scan pursuit).2 = true := by
  simp [controlTickCmd, safetyInterlock, h]

/-- Witness for C1, the scenario of the spec: a single valid forward reading
of 0.15 m gives effective range 0.03 m, below the 0.24 m stop distance, so
the emitted linear velocity is 0 even though pursuit asked for full speed. -/
theorem C1_safety_interlock_zeroes_velocity_witness :
    minForwardRange 1 [⟨0, 15/100, true⟩] - SENSOR_OFFSET_ < STOP_DISTANCE_ ∧
      ((controlTickCmd 1 [⟨0, 15/100, true⟩] ⟨26/100, 1/2⟩).1.linear = 0 ∧
        (controlTickCmd 1 [⟨0, 15/100, true⟩] ⟨26/100, 1/2⟩).2 = true) :=
  ⟨by norm_num [minForwardRange, inForwardSector, DBL_MAX_, SENSOR_OFFSET_, STOP_DISTANCE_],
   C1_safety_interlock_zeroes_velocity 1 [⟨0, 15/100, true⟩] ⟨26/100, 1/2⟩
     (by norm_num [minForwardRange, inForwardSector, DBL_MAX_, SENSOR_OFFSET_, STOP_DISTANCE_])⟩

/-- C9: the mission start/stop request is idempotent on the mission-active
flag and always succeeds at the protocol level: issuing the same request
twice leaves running_ exactly as issuing it once, and the handler reports
success for every current state and requested value. -/
theorem C9_request_idempotent_always_succeeds (s : MissionState) (req : Bool) :
    (request req (request req s).1).1.running_ = (request req s).1.running_ ∧
      (request req s).2.success = true := by
  constructor <;> rfl

/-- C2: every profile the trajectory generator produces keeps all point
velocities in the interval from 0 to MAX_VEL, keeps the difference of
consecutive velocities within MAX_ACCEL times the tick period, and keeps
the second difference within MAX_JERK times the squared tick period. -/
theorem C2_profile_velocity_accel_jerk_bounds (dt : ℚ) (start : Point)
    (goals : List Point) (prof : List ProfilePoint) (hdt : 0 < dt)
    (hgen : GenerateSpline dt start goals = some prof) :
    (∀ p ∈ prof, 0 ≤ p.vel ∧ p.vel ≤ MAX_VEL) ∧
      (∀ i, ∀ h : i + 1 < prof.length,
        |prof[i + 1].vel - prof[i].vel| ≤ MAX_ACCEL * dt) ∧
      (∀ i, ∀ h : i + 2 < prof.length,
        |prof[i + 2].vel - 2 * prof[i + 1].vel + prof[i].vel| ≤ MAX_JERK * dt ^ 2) := by
  unfold GenerateSpline at hgen
  by_cases hlen : goals.length < 2
  · rw [if_pos hlen] at hgen
    exact absurd hgen (by simp)
  · rw [if_neg hlen] at hgen
    have hprof : prof = profileOf dt start goals := (Option.some_inj.mp hgen).symm
    subst hprof
    exact ⟨profileOf_vel_bounds dt start goals hdt,
      profileOf_accel_bound dt start goals hdt,
      profileOf_jerk_bound dt start goals hdt⟩

/-- Witness for C2: the generator run at tick period one tenth of a second
from the origin through two concrete goals yields a profile, and the three
bounds hold for it. -/
theorem C2_profile_velocity_accel_jerk_bounds_witness :
    (0 : ℚ) < 1 / 10 ∧
      ∃ prof, GenerateSpline (1 / 10) ⟨0, 0⟩ [⟨1, 0⟩, ⟨2, 0⟩] = some prof ∧
        ((∀ p ∈ prof, 0 ≤ p.vel ∧ p.vel ≤ MAX_VEL) ∧
          (∀ i, ∀ h : i + 1 < prof.length,
            |prof[i + 1].vel - prof[i].vel| ≤ MAX_ACCEL * (1 / 10)) ∧
          (∀ i, ∀ h : i + 2 < prof.length,
            |prof[i + 2].vel - 2 * prof[i + 1].vel + prof[i].vel| ≤
              MAX_JERK * (1 / 10) ^ 2)) := by
  have h : (GenerateSpline (1 / 10 : ℚ) ⟨0, 0⟩ [⟨1, 0⟩, ⟨2, 0⟩]).isSome = true := by decide
  exact ⟨by norm_num,
    (GenerateSpline (1 / 10 : ℚ) ⟨0, 0⟩ [⟨1, 0⟩, ⟨2, 0⟩]).get h,
    (Option.some_get h).symm,
    C2_profile_velocity_accel_jerk_bounds (1 / 10) ⟨0, 0⟩ [⟨1, 0⟩, ⟨2, 0⟩] _
      (by norm_num) (Option.some_get h).symm⟩

/-- C4: trajectory generation fails, producing no profile, exactly when
fewer than two goal points are supplied; with two or more points it
returns the generated profile. It is a total function, so it cannot
crash. -/
theorem C4_generate_requires_two_points (dt : ℚ) (start : Point) (goals : List Point) :
    (GenerateSpline dt start goals = none ↔ goals.length < 2) ∧
      (2 ≤ goals.length →
        GenerateSpline dt start goals = some (profileOf dt start goals)) := by
  unfold GenerateSpline
  by_cases h : goals.length < 2
  · constructor
    · simp [h]
    · intro h2
      omega
  · constructor
    · simp [h]
    · intro _
      rw [if_neg h]

/-- Mission-relevant mutable state touched by trajectory generation: the
current pose, the ordered goals and the stored profile path_. -/
structure SampleState where
  robotPose_ : Point
  goals_ : List Point
  path_ : List ProfilePoint
deriving DecidableEq

/-- Modelled from the spec: the GenerateSpline member acting on the object
state: it recomputes the profile from the current pose and the ordered
goals and stores it in path_, leaving path_ unchanged when generation
fails for lack of points. -/
def GenerateSplineUpdate (dt : ℚ) (s : SampleState) : SampleState :=
  ⟨s.robotPose_, s.goals_, (GenerateSpline dt s.robotPose_ s.goals_).getD s.path_⟩

/-- C8: trajectory generation is idempotent: running it twice on the same
pose and ordered goals leaves exactly the state reached by running it
once, so the two generated profiles are equal (exactly, hence in
particular within any floating-point tolerance). -/
theorem C8_generate_idempotent (dt : ℚ) (s : SampleState) :
    GenerateSplineUpdate dt (GenerateSplineUpdate dt s) = GenerateSplineUpdate dt s := by
  unfold GenerateSplineUpdate
  cases h : GenerateSpline dt s.robotPose_ s.goals_ <;> simp [h]

/-- A 2D point with real coordinates, for the trigonometric pursuit law. -/
structure PointR where
  x : ℝ
  y : ℝ

/-- Robot pose with real coordinates and heading angle, for the
trigonometric pursuit law. -/
structure PoseR where
  x : ℝ
  y : ℝ
  theta : ℝ

/-- The lookahead distance as a real number (sample.h line 241). -/
noncomputable def lookaheadDistR : ℝ := 4 / 10

/-- The steering sensitivity as a real number (sample.h line 212). -/
noncomputable def steeringSensR : ℝ := 8 / 10

/-- Bearing from the robot heading to a target point: the polar angle of
the offset vector minus the robot heading. -/
noncomputable def bearingTo (robot : PoseR) (p : PointR) : ℝ :=
  Complex.arg ⟨p.x - robot.x, p.y - robot.y⟩ - robot.theta

/-- Modelled from the spec: computeCurvature (declared at sample.h line
144), written in the local-frame algebraic form an implementation
evaluates: twice the lateral offset of the goal in the robot frame,
divided by the product of the goal distance and the lookahead distance. -/
noncomputable def computeCurvature (goal : PointR) (robot : PoseR) : ℝ :=
  2 * ((goal.y - robot.y) * Real.cos robot.theta -
      (goal.x - robot.x) * Real.sin robot.theta) /
    (Real.sqrt ((goal.x - robot.x) ^ 2 + (goal.y - robot.y) ^ 2) * lookaheadDistR)

/-- Modelled from the spec: the emitted steering command is the computed
curvature scaled by the steering sensitivity. -/
noncomputable def steeringCmd (goal : PointR) (robot : PoseR) : ℝ :=
  steeringSensR * computeCurvature goal robot

/-- C7: for every robot pose and lookahead point distinct from the robot
position, the computed curvature equals the pure-pursuit formula, twice
the sine of the bearing from the robot heading to the point divided by the
lookahead distance, and the emitted steering command is that curvature
multiplied by the steering sensitivity. -/
theorem C7_curvature_and_steering_formula (goal : PointR) (robot : PoseR)
    (h : ¬(goal.x = robot.x ∧ goal.y = robot.y)) :
    computeCurvature goal robot = 2 * Real.sin (bearingTo robot goal) / lookaheadDistR ∧
      steeringCmd goal robot = steeringSensR * computeCurvature goal robot := by
  refine ⟨?_, rfl⟩
  have hz : (⟨goal.x - robot.x, goal.y - robot.y⟩ : ℂ) ≠ 0 := by
    intro hzero
    rw [Complex.ext_iff] at hzero
    refine h ⟨?_, ?_⟩
    · have h1 := hzero.1
      simpa [sub_eq_zero] using h1
    · have h2 := hzero.2
      simpa [sub_eq_zero] using h2
  have habs : Complex.abs ⟨goal.x - robot.x, goal.y - robot.y⟩ =
      Real.sqrt ((goal.x - robot.x) ^ 2 + (goal.y - robot.y) ^ 2) := by
    rw [Complex.abs_apply, Complex.normSq_mk]
    congr 1
    ring
  have habs_ne : Complex.abs ⟨goal.x - robot.x, goal.y - robot.y⟩ ≠ 0 :=
    (map_ne_zero Complex.abs).mpr hz
  have hsin : Real.sin (bearingTo robot goal) =
      ((goal.y - robot.y) * Real.cos robot.theta -
        (goal.x - robot.x) * Real.sin robot.theta) /
        Complex.abs ⟨goal.x - robot.x, goal.y - robot.y⟩ := by
    unfold bearingTo
    rw [Real.sin_sub, Complex.sin_arg, Complex.cos_arg hz]
    field_simp
  have hL : lookaheadDistR ≠ 0 := by
    rw [lookaheadDistR]
    norm_num
  unfold computeCurvature
  rw [hsin, ← habs]
  field_simp

/-- Witness for C7 at the concrete pose at the origin facing along the
x-axis with the lookahead point one meter ahead. -/
theorem C7_curvature_and_steering_formula_witness :
    (¬((⟨1, 0⟩ : PointR).x = (⟨0, 0, 0⟩ : PoseR).x ∧
        (⟨1, 0⟩ : PointR).y = (⟨0, 0, 0⟩ : PoseR).y)) ∧
      (computeCurvature ⟨1, 0⟩ ⟨0, 0, 0⟩ =
          2 * Real.sin (bearingTo ⟨0, 0, 0⟩ ⟨1, 0⟩) / lookaheadDistR ∧
        steeringCmd ⟨1, 0⟩ ⟨0, 0, 0⟩ =
          steeringSensR * computeCurvature ⟨1, 0⟩ ⟨0, 0, 0⟩) :=
  ⟨fun hc => one_ne_zero hc.1,
    C7_curvature_and_steering_formula ⟨1, 0⟩ ⟨0, 0, 0⟩ (fun hc => one_ne_zero hc.1)⟩

/-- C10: the motion-limit configuration is the fixed constant set
MAX_VEL = 0.26, MAX_ACCEL = 0.43, MAX_JERK = 1.0 and ROBOT_WIDTH_ = 0.3
(sample.h lines 226-230; immutable by construction in this embedding), and
the generator bound phrased through MAX_VEL concretely caps every profile
velocity at 0.26 meters per second. -/
theorem C10_motion_limits_fixed_constants :
    MAX_VEL = 26 / 100 ∧ MAX_ACCEL = 43 / 100 ∧ MAX_JERK = 1 ∧ ROBOT_WIDTH_ = 3 / 10 ∧
      ∀ dt start goals prof, 0 < dt → GenerateSpline dt start goals = some prof →
        ∀ p ∈ prof, p.vel ≤ 26 / 100 := by
  refine ⟨rfl, rfl, rfl, rfl, ?_⟩
  intro dt start goals prof hdt hgen p hp
  unfold GenerateSpline at hgen
  by_cases hlen : goals.length < 2
  · rw [if_pos hlen] at hgen
    exact absurd hgen (by simp)
  · rw [if_neg hlen] at hgen
    have hprof : prof = profileOf dt start goals := (Option.some_inj.mp hgen).symm
    subst hprof
    have := (profileOf_vel_bounds dt start goals hdt p hp).2
    rw [MAX_VEL] at this
    exact this

end Artbot
